import Mathlib

/-!
Verification of the autocrop engine of the recipe-scan tool.

This file shallowly embeds the image-cropping functions of
`src/notecard_extractor/image_processing.py` (`autocrop_white_border` and the
side-parameterised `autocrop_grey_border`) and the older combined left+right
`autocrop_grey_border` of `src/notecard_extractor/main.py`.

Modelling conventions:
* A PIL image (already in RGB mode; the code's initial `convert("RGB")` is the
  identity on such images) is `Image`: a width, a height and a total pixel
  function.  Pixel reads made by the code go through the checked accessor
  `Image.getPx`, which mirrors PIL's bounds-checked `pixels[x, y]`.
* Python `int` is `Int`.  Python floor division `//` is written with Lean's
  `Int` division `/` (Euclidean); at every occurrence in this code the two
  agree with Python: the divisor is positive, or the divisor equals the
  dividend (the step computation when `scan_y_end - scan_y_start < 0`, where
  both give 1).
* `int(width * 0.5)` is `w / 2` and `int(width * 0.1)` is `w / 10`: for the
  image sizes at hand the float products are exact enough that `int(...)`
  truncates to the floor of the rational value (0.5 is an exact binary float;
  for 0.1 the rounded product never crosses an integer for inputs far below
  2^45).
* `color_distance(p, c) > tolerance` compares `sqrt(distSq)` with the integer
  tolerance; for `tolerance ≥ 0` this is exactly `distSq > tolerance²`
  (the squares are exactly representable and float sqrt is monotone), and for
  a negative tolerance it always holds; see `distGtTol`.
* `int(statistics.mean(vals))` is the floor of the exact rational mean: the
  sums and counts here are far too small for the intermediate float to cross
  an integer boundary.  See `meanColor`.
* A Python run that raises an exception (a `ZeroDivisionError` in the scan
  step computation, or an out-of-range pixel access) is modelled as `none`;
  a normal return is `some`.
-/

/-- ASCII lowering of one character, as Python `str.lower` acts on ASCII. -/
def charLower (c : Char) : Char :=
  if c.toNat ≥ 65 ∧ c.toNat ≤ 90 then Char.ofNat (c.toNat + 32) else c

/-- Python `sides.lower()`; modelled on the ASCII range, which covers the four
side names the code compares against. -/
def pyLower (s : String) : String := String.mk (s.data.map charLower)

/-- An RGB pixel value as the code sees it: the 3-tuple returned by
`pixels[x, y]` on an RGB image. -/
structure Rgb where
  r : Int
  g : Int
  b : Int
deriving DecidableEq

/-- A decoded image: dimensions plus a pixel accessor (row-major access is
irrelevant; the code addresses pixels by coordinates only). -/
structure Image where
  width : Nat
  height : Nat
  px : Nat → Nat → Rgb

/-- In-bounds predicate for a coordinate pair, as enforced by PIL's pixel
access object. -/
def inBounds (img : Image) (c : Int × Int) : Prop :=
  0 ≤ c.1 ∧ c.1 < (img.width : Int) ∧ 0 ≤ c.2 ∧ c.2 < (img.height : Int)

instance (img : Image) (c : Int × Int) : Decidable (inBounds img c) := by
  unfold inBounds; infer_instance

/-- Bounds-checked pixel read, `pixels[x, y]`: `none` models the `IndexError`
PIL raises on an out-of-range access. -/
def Image.getPx (img : Image) (x y : Int) : Option Rgb :=
  if inBounds img (x, y) then some (img.px x.toNat y.toNat) else none

/-- PIL `image.crop((l, t, r, b))` for the boxes this code builds
(`0 ≤ l ≤ r`, `0 ≤ t ≤ b`): the `(r-l) × (b-t)` view shifted by `(l, t)`. -/
def Image.crop (img : Image) (l t r b : Int) : Image :=
  { width := (r - l).toNat
    height := (b - t).toNat
    px := fun x y => img.px (x + l.toNat) (y + t.toNat) }

/-- Number of elements of Python `range(start, stop, step)` (`step ≠ 0`):
`max 0` of the ceiling of `(stop - start) / step`. -/
def pyCount (start stop step : Int) : Nat :=
  if 0 < step then (stop - start + step - 1).toNat / step.toNat
  else if step < 0 then (start - stop - step - 1).toNat / (-step).toNat
  else 0

/-- Python `range(start, stop, step)` as the list it iterates over. -/
def pyRange (start stop step : Int) : List Int :=
  (List.range (pyCount start stop step)).map (fun i : Nat => start + step * (i : Int))

/-- Squared Euclidean RGB distance: the code's `color_distance` is the square
root of this. -/
def distSq (a c : Rgb) : Int :=
  (a.r - c.r) ^ 2 + (a.g - c.g) ^ 2 + (a.b - c.b) ^ 2

/-- The code's test `color_distance(p, c) > tolerance`, made exact: the
(nonnegative) distance exceeds a negative tolerance always, and exceeds a
nonnegative tolerance iff its square exceeds `tolerance²`. -/
def distGtTol (dsq tol : Int) : Bool :=
  tol < 0 || dsq > tol * tol

/-- Collect the pixels at a list of coordinates in order, failing (`none`) on
the first out-of-range access, as the sampling loops
`..._margin_pixels.append(pixels[x, y])` would. -/
def gatherPixels (img : Image) (coords : List (Int × Int)) : Option (List Rgb) :=
  match coords with
  | [] => some []
  | c :: rest =>
    match img.getPx c.1 c.2 with
    | none => none
    | some p =>
      match gatherPixels img rest with
      | none => none
      | some ps => some (p :: ps)

/-- Per-channel `int(statistics.mean(vals))` over a nonempty sample list: the
floor of the exact rational mean (the float detour in Python cannot change the
truncated value at these magnitudes). -/
def meanColor (ps : List Rgb) : Rgb :=
  { r := (ps.map Rgb.r).sum / (ps.length : Int)
    g := (ps.map Rgb.g).sum / (ps.length : Int)
    b := (ps.map Rgb.b).sum / (ps.length : Int) }

/-- The fallback `(240, 240, 240)` used when edge sampling finds nothing and no
`border_color` was supplied. -/
def defaultGrey : Rgb := ⟨240, 240, 240⟩

/-- `edge_exclusion = max(10, height // 20)`. -/
def edgeExclusionY (img : Image) : Int := max 10 ((img.height : Int) / 20)

/-- `scan_y_start = edge_exclusion`. -/
def scanYStart (img : Image) : Int := edgeExclusionY img

/-- `scan_y_end = height - edge_exclusion`. -/
def scanYEnd (img : Image) : Int := (img.height : Int) - edgeExclusionY img

/-- `edge_exclusion_x = max(10, width // 20)` (top/bottom branches). -/
def edgeExclusionX (img : Image) : Int := max 10 ((img.width : Int) / 20)

/-- `scan_x_start = edge_exclusion_x`. -/
def scanXStart (img : Image) : Int := edgeExclusionX img

/-- `scan_x_end = width - edge_exclusion_x`. -/
def scanXEnd (img : Image) : Int := (img.width : Int) - edgeExclusionX img

/-- The vertical sampling stride of the colour-sampling loops,
`max(1, (scan_y_end - scan_y_start) // 20)`. -/
def ySampleStep (img : Image) : Int :=
  max 1 ((scanYEnd img - scanYStart img) / 20)

/-- The horizontal sampling stride of the top/bottom colour-sampling loops,
`max(1, (scan_x_end - scan_x_start) // 20)`. -/
def xSampleStep (img : Image) : Int :=
  max 1 ((scanXEnd img - scanXStart img) / 20)

/-- Coordinates visited by the left colour-sampling loops:
`for x in range(min(20, width)): for y in range(scan_y_start, scan_y_end, ...)`. -/
def leftSampleCoords (img : Image) : List (Int × Int) :=
  (pyRange 0 (min 20 (img.width : Int)) 1).flatMap (fun x =>
    (pyRange (scanYStart img) (scanYEnd img) (ySampleStep img)).map (fun y => (x, y)))

/-- Coordinates visited by the right colour-sampling loops:
`for x in range(max(0, width - sample_width), width): ...`. -/
def rightSampleCoords (img : Image) : List (Int × Int) :=
  (pyRange (max 0 ((img.width : Int) - 20)) (img.width : Int) 1).flatMap (fun x =>
    (pyRange (scanYStart img) (scanYEnd img) (ySampleStep img)).map (fun y => (x, y)))

/-- Coordinates visited by the top colour-sampling loops:
`for y in range(min(20, height)): for x in range(scan_x_start, scan_x_end, ...)`. -/
def topSampleCoords (img : Image) : List (Int × Int) :=
  (pyRange 0 (min 20 (img.height : Int)) 1).flatMap (fun y =>
    (pyRange (scanXStart img) (scanXEnd img) (xSampleStep img)).map (fun x => (x, y)))

/-- Coordinates visited by the bottom colour-sampling loops:
`for y in range(max(0, height - sample_height), height): ...`. -/
def bottomSampleCoords (img : Image) : List (Int × Int) :=
  (pyRange (max 0 ((img.height : Int) - 20)) (img.height : Int) 1).flatMap (fun y =>
    (pyRange (scanXStart img) (scanXEnd img) (xSampleStep img)).map (fun x => (x, y)))

/-- `left_margin_color`: the per-channel mean of the sampled left-edge pixels,
falling back to `border_color or (240, 240, 240)` when no pixel was sampled. -/
def leftMarginColor (img : Image) (borderColor : Option Rgb) : Option Rgb :=
  match gatherPixels img (leftSampleCoords img) with
  | none => none
  | some ps => some (if ps.isEmpty then borderColor.getD defaultGrey else meanColor ps)

/-- `right_margin_color`: the mean of the sampled right-edge pixels; when none
were sampled it falls back to `left_margin_color` if left-edge pixels existed,
else to `border_color or (240, 240, 240)`. -/
def rightMarginColor (img : Image) (borderColor : Option Rgb) : Option Rgb :=
  match gatherPixels img (leftSampleCoords img) with
  | none => none
  | some lps =>
    match gatherPixels img (rightSampleCoords img) with
    | none => none
    | some rps =>
      some (if rps.isEmpty then
              (if lps.isEmpty then borderColor.getD defaultGrey else meanColor lps)
            else meanColor rps)

/-- `top_margin_color` (computed inside the `"top"` branch). -/
def topMarginColor (img : Image) (borderColor : Option Rgb) : Option Rgb :=
  match gatherPixels img (topSampleCoords img) with
  | none => none
  | some ps => some (if ps.isEmpty then borderColor.getD defaultGrey else meanColor ps)

/-- `bottom_margin_color` (computed inside the `"bottom"` branch). -/
def bottomMarginColor (img : Image) (borderColor : Option Rgb) : Option Rgb :=
  match gatherPixels img (bottomSampleCoords img) with
  | none => none
  | some ps => some (if ps.isEmpty then borderColor.getD defaultGrey else meanColor ps)

/-- The inner loop of every scan branch: walk the sampled coordinates of one
candidate line in order; `some false` (with a `break`) as soon as one pixel is
farther than `tolerance` from the margin colour, `some true` when every sample
is within tolerance, `none` on an out-of-range access. -/
def lineAllMargin (img : Image) (color : Rgb) (tol : Int)
    (coords : List (Int × Int)) : Option Bool :=
  match coords with
  | [] => some true
  | c :: rest =>
    match img.getPx c.1 c.2 with
    | none => none
    | some p =>
      if distGtTol (distSq p color) tol then some false
      else lineAllMargin img color tol rest

/-- The scan-and-classify loop shared (textually duplicated) by the four
Python branches.  `lines` are the candidate lines in scan order; for each,
`sample_size = min(30, ortEnd - ortStart)` and
`step = max(1, (ortEnd - ortStart) // sample_size)` are recomputed, a
`ZeroDivisionError` (`none`) occurring when `sample_size == 0`; `mk l o` turns
a line/orthogonal pair into an `(x, y)` coordinate.  Returns `some (some l)`
for the first line containing content, and `some none` when every candidate
line was classified as all-margin. -/
def scanFirstContent (img : Image) (color : Rgb) (tol : Int)
    (ortStart ortEnd : Int) (mk : Int → Int → Int × Int)
    (lines : List Int) : Option (Option Int) :=
  match lines with
  | [] => some none
  | l :: rest =>
    if min 30 (ortEnd - ortStart) = 0 then none
    else
      match lineAllMargin img color tol
          ((pyRange ortStart ortEnd
            (max 1 ((ortEnd - ortStart) / min 30 (ortEnd - ortStart)))).map (mk l)) with
      | none => none
      | some true => scanFirstContent img color tol ortStart ortEnd mk rest
      | some false => some (some l)

/-- Candidate columns of the left scan: `range(min(int(width * 0.5), 1000))`. -/
def leftScanLines (w : Nat) : List Int :=
  pyRange 0 (min ((w : Int) / 2) 1000) 1

/-- Candidate columns of the right scan of `image_processing.py`:
`range(width - 1, (width - int(width * 0.5)) - 1, -1)` — note: no 1000-pixel
cap here, unlike the left scan. -/
def rightScanLines (w : Nat) : List Int :=
  pyRange ((w : Int) - 1) (((w : Int) - (w : Int) / 2) - 1) (-1)

/-- Candidate rows of the top scan: `range(min(int(height * 0.5), 1000))`. -/
def topScanLines (h : Nat) : List Int :=
  pyRange 0 (min ((h : Int) / 2) 1000) 1

/-- Candidate rows of the bottom scan:
`range(height - 1, (height - int(height * 0.5)) - 1, -1)` — again no
1000-pixel cap. -/
def bottomScanLines (h : Nat) : List Int :=
  pyRange ((h : Int) - 1) (((h : Int) - (h : Int) / 2) - 1) (-1)

/-- The four side branches of `autocrop_grey_border`
(`image_processing.py`, lines 150-337), taking the already-computed left and
right margin colours and the already-lowercased `side`.  Each branch pads its
boundary by 2 toward the edge and crops only its own side; an unrecognised
side returns the image unchanged. -/
def greyBranch (img : Image) (lc rc : Rgb) (borderColor : Option Rgb)
    (tol : Int) (side : String) : Option Image :=
  if side = "left" then
    match scanFirstContent img lc tol (scanYStart img) (scanYEnd img)
        (fun x y => (x, y)) (leftScanLines img.width) with
    | none => none
    | some r =>
      some (img.crop (max 0 (r.getD 0 - 2)) 0 (img.width : Int) (img.height : Int))
  else if side = "right" then
    match scanFirstContent img rc tol (scanYStart img) (scanYEnd img)
        (fun x y => (x, y)) (rightScanLines img.width) with
    | none => none
    | some r =>
      some (img.crop 0 0
        (min (img.width : Int)
          ((match r with | some x => x + 1 | none => (img.width : Int)) + 2))
        (img.height : Int))
  else if side = "top" then
    match topMarginColor img borderColor with
    | none => none
    | some tc =>
      match scanFirstContent img tc tol (scanXStart img) (scanXEnd img)
          (fun l o => (o, l)) (topScanLines img.height) with
      | none => none
      | some r =>
        some (img.crop 0 (max 0 (r.getD 0 - 2)) (img.width : Int) (img.height : Int))
  else if side = "bottom" then
    match bottomMarginColor img borderColor with
    | none => none
    | some bcol =>
      match scanFirstContent img bcol tol (scanXStart img) (scanXEnd img)
          (fun l o => (o, l)) (bottomScanLines img.height) with
      | none => none
      | some r =>
        some (img.crop 0 0 (img.width : Int)
          (min (img.height : Int)
            ((match r with | some y => y + 1 | none => (img.height : Int)) + 2)))
  else some img

/-- `autocrop_grey_border(image, border_color, tolerance, sides)` of
`src/notecard_extractor/image_processing.py`: sample the left and right margin
colours, lowercase `sides`, then run the matching branch. -/
def autocropGreyBorder (img : Image) (borderColor : Option Rgb)
    (tolerance : Int) (sides : String) : Option Image :=
  match leftMarginColor img borderColor, rightMarginColor img borderColor with
  | some lc, some rc => greyBranch img lc rc borderColor tolerance (pyLower sides)
  | _, _ => none

/-- Pillow's RGB→L conversion (ITU-R 601-2 luma,
`L = R * 299/1000 + G * 587/1000 + B * 114/1000`, computed as
`(R*19595 + G*38470 + B*7471 + 2^15) >> 16`). -/
def luminance (p : Rgb) : Int :=
  (p.r * 19595 + p.g * 38470 + p.b * 7471 + 32768) / 65536

/-- The full-image scan order of `autocrop_white_border`:
`for y in range(height): for x in range(width)`. -/
def allCoords (w h : Nat) : List (Int × Int) :=
  (pyRange 0 (h : Int) 1).flatMap (fun y =>
    (pyRange 0 (w : Int) 1).map (fun x => (x, y)))

/-- The bounding-box accumulation loop of `autocrop_white_border`: every pixel
with luminance strictly below the threshold extends the running
`(top, bottom, left, right)` extrema. -/
def whiteBboxFold (img : Image) (threshold : Int) (coords : List (Int × Int))
    (top bottom left right : Int) : Option (Int × Int × Int × Int) :=
  match coords with
  | [] => some (top, bottom, left, right)
  | c :: rest =>
    match img.getPx c.1 c.2 with
    | none => none
    | some p =>
      if luminance p < threshold then
        whiteBboxFold img threshold rest (min top c.2) (max bottom c.2)
          (min left c.1) (max right c.1)
      else whiteBboxFold img threshold rest top bottom left right

/-- The crop box `autocrop_white_border` decides on: `some none` when no
content pixel was found (the image is returned as is), otherwise the content
bounding box expanded by the padding of 2 and clamped to the image,
`(left, top, right, bottom)` with right/bottom exclusive. -/
def whitePaddedRect (img : Image) (threshold : Int) :
    Option (Option (Int × Int × Int × Int)) :=
  match whiteBboxFold img threshold (allCoords img.width img.height)
      (img.height : Int) 0 (img.width : Int) 0 with
  | none => none
  | some (top, bottom, left, right) =>
    if top = (img.height : Int) ∨ left = (img.width : Int) then some none
    else some (some (max 0 (left - 2), max 0 (top - 2),
                     min (img.width : Int) (right + 2 + 1),
                     min (img.height : Int) (bottom + 2 + 1)))

/-- `autocrop_white_border(image, threshold)` of
`src/notecard_extractor/image_processing.py`, lines 11-60. -/
def autocropWhiteBorder (img : Image) (threshold : Int) : Option Image :=
  match whitePaddedRect img threshold with
  | none => none
  | some none => some img
  | some (some (l, t, r, b)) => some (img.crop l t r b)

/-- Candidate columns of the right scan of the older combined
`autocrop_grey_border` in `src/notecard_extractor/main.py`:
`scan_start = max(left + int(width * 0.1), int(width * 0.5))` and
`range(width - 1, scan_start - 1, -1)`. -/
def mainRightScanLines (w : Nat) (left : Int) : List Int :=
  pyRange ((w : Int) - 1) (max (left + (w : Int) / 10) ((w : Int) / 2) - 1) (-1)

/-- The right boundary the `main.py` scan ends up with: `x + 1` for the first
content column `x`, else the initial value `width`. -/
def mainRightBoundary (w : Nat) (rr : Option Int) : Int :=
  match rr with
  | some x => x + 1
  | none => (w : Int)

/-- `autocrop_grey_border(image, border_color, tolerance)` of
`src/notecard_extractor/main.py`, lines 163-307: scans the left and then the
right margin, rejects the crop when `left >= right` or
`right - left < width * 0.1` (returning the image unmodified), else pads both
boundaries by 2 and crops `(left, 0, right, height)`. -/
def autocropGreyBorderMain (img : Image) (borderColor : Option Rgb)
    (tolerance : Int) : Option Image :=
  match leftMarginColor img borderColor, rightMarginColor img borderColor with
  | some lc, some rc =>
    match scanFirstContent img lc tolerance (scanYStart img) (scanYEnd img)
        (fun x y => (x, y)) (leftScanLines img.width) with
    | none => none
    | some lr =>
      match scanFirstContent img rc tolerance (scanYStart img) (scanYEnd img)
          (fun x y => (x, y)) (mainRightScanLines img.width (lr.getD 0)) with
      | none => none
      | some rr =>
        if lr.getD 0 ≥ mainRightBoundary img.width rr ∨
            (mainRightBoundary img.width rr - lr.getD 0) * 10 < (img.width : Int) then
          some img
        else
          some (img.crop (max 0 (lr.getD 0 - 2)) 0
            (min (img.width : Int) (mainRightBoundary img.width rr + 2)) (img.height : Int))
  | _, _ => none

/-- Number of sampled pixels on a line whose distance to the margin colour
exceeds the tolerance. -/
def countBeyondTol (img : Image) (color : Rgb) (tol : Int)
    (coords : List (Int × Int)) : Nat :=
  coords.countP (fun c => distGtTol (distSq (img.px c.1.toNat c.2.toNat) color) tol)

/-- A uniform light-grey `(220, 220, 220)` test image. -/
def uniImg (w h : Nat) : Image := ⟨w, h, fun _ _ => ⟨220, 220, 220⟩⟩

/-- A 12×30 grey image with a single black pixel at `(5, 15)` — one stray
dark sample on an otherwise clean margin column. -/
def ex1 : Image :=
  ⟨12, 30, fun x y => if x = 5 ∧ y = 15 then ⟨0, 0, 0⟩ else ⟨220, 220, 220⟩⟩

/-- The coordinates the left scan samples on column 5 of `ex1` (its step
works out to 1 over the excluded range, rows 10 to 19). -/
def ex1LineCoords : List (Int × Int) :=
  (pyRange (scanYStart ex1) (scanYEnd ex1)
    (max 1 ((scanYEnd ex1 - scanYStart ex1) /
      min 30 (scanYEnd ex1 - scanYStart ex1)))).map (fun y => ((5 : Int), y))

/-- A 40×30 image built from vertical bands: columns 0-9 at grey 200,
columns 10-17 at grey 150, a black column at 24, grey 120 elsewhere.  The
first left pass stops at column 18 and crops to column 16; on the cropped
image the re-estimated margin colour (117) makes the surviving bands look
like margin again, so a second pass crops further. -/
def ex5 : Image :=
  ⟨40, 30, fun x _ =>
    if x < 10 then ⟨200, 200, 200⟩
    else if x < 18 then ⟨150, 150, 150⟩
    else if x = 24 then ⟨0, 0, 0⟩
    else ⟨120, 120, 120⟩⟩

/-- A 13×13 white canvas with one black pixel at `(10, 10)`. -/
def whiteCanvas : Image :=
  ⟨13, 13, fun x y => if x = 10 ∧ y = 10 then ⟨0, 0, 0⟩ else ⟨255, 255, 255⟩⟩

/-- A zero-width image. -/
def zimgA : Image := ⟨0, 5, fun _ _ => ⟨0, 0, 0⟩⟩

/-- A zero-height image. -/
def zimgB : Image := ⟨4, 0, fun _ _ => ⟨7, 7, 7⟩⟩

/-- Two in-bounds sample coordinates on `uniImg 5 25`. -/
def wcoords : List (Int × Int) := [((0 : Int), (10 : Int)), ((0 : Int), (11 : Int))]

set_option maxRecDepth 1000000

/-! Basic lemmas about the embedding. -/

/-- Cropping to the full box is the identity. -/
theorem Image.crop_full (img : Image) :
    img.crop 0 0 (img.width : Int) (img.height : Int) = img := rfl

/-- An upward `range` with `stop ≤ start` is empty. -/
theorem pyRange_nil {s e st : Int} (h : e ≤ s) (hst : 0 < st) :
    pyRange s e st = [] := by
  unfold pyRange pyCount
  rw [if_pos hst]
  have h1 : (e - s + st - 1).toNat < st.toNat := by omega
  rw [Nat.div_eq_of_lt h1]
  rfl

/-- A downward `range` with `start ≤ stop` is empty. -/
theorem pyRange_nil_down {s e st : Int} (h : s ≤ e) (hst : st < 0) :
    pyRange s e st = [] := by
  unfold pyRange pyCount
  rw [if_neg (by omega), if_pos hst]
  have h1 : (s - e - st - 1).toNat < (-st).toNat := by omega
  rw [Nat.div_eq_of_lt h1]
  rfl

/-- Members of an upward `range` lie in `[start, stop)`. -/
theorem pyRange_mem_bounds {s e st y : Int} (hst : 0 < st)
    (hy : y ∈ pyRange s e st) : s ≤ y ∧ y < e := by
  unfold pyRange at hy
  obtain ⟨i, hi, rfl⟩ := List.mem_map.mp hy
  rw [List.mem_range] at hi
  have hi0 : (0 : Int) ≤ (i : Int) := Int.ofNat_nonneg i
  constructor
  · have : 0 ≤ st * (i : Int) := mul_nonneg hst.le hi0
    omega
  · unfold pyCount at hi
    rw [if_pos hst] at hi
    have hT : 0 < st.toNat := by omega
    have h2 : (i + 1) * st.toNat ≤ (e - s + st - 1).toNat :=
      (Nat.le_div_iff_mul_le hT).mp hi
    have h3 : (((i : Int)) + 1) * st ≤ ((e - s + st - 1).toNat : Int) := by
      have := Int.ofNat_le.mpr h2
      push_cast at this
      rw [Int.toNat_of_nonneg hst.le] at this
      exact this
    have h4 : ((e - s + st - 1).toNat : Int) = max (e - s + st - 1) 0 := by omega
    have h5 : st ≤ ((i : Int) + 1) * st := by
      have h5a := mul_le_mul_of_nonneg_right (by omega : (1 : Int) ≤ (i : Int) + 1) hst.le
      linarith [h5a]
    have h6 : ((i : Int) + 1) * st ≤ e - s + st - 1 := by
      rcases le_or_lt (e - s + st - 1) 0 with hle | hgt
      · exfalso; rw [h4] at h3; linarith [max_eq_right hle, h3, h5]
      · rw [h4] at h3; linarith [max_eq_left hgt.le, h3]
    have h7 : st * (i : Int) = ((i : Int) + 1) * st - st := by ring
    linarith

/-- An upward `range` with `start < stop` is nonempty. -/
theorem pyCount_pos {s e st : Int} (h : s < e) (hst : 0 < st) :
    0 < pyCount s e st := by
  unfold pyCount
  rw [if_pos hst]
  have hT : 0 < st.toNat := by omega
  exact (Nat.one_le_div_iff hT).mpr (by omega)

/-- The first element of a nonempty upward `range` is its start. -/
theorem pyRange_head_mem {s e st : Int} (h : s < e) (hst : 0 < st) :
    s ∈ pyRange s e st := by
  unfold pyRange
  exact List.mem_map.mpr ⟨0, List.mem_range.mpr (pyCount_pos h hst), by simp⟩

/-- The length of a `range` is its element count. -/
theorem pyRange_length (s e st : Int) : (pyRange s e st).length = pyCount s e st := by
  unfold pyRange
  rw [List.length_map, List.length_range]

/-- When every coordinate is in bounds the sampling loop collects exactly the
pixels at those coordinates. -/
theorem gatherPixels_eq_map (img : Image) (coords : List (Int × Int))
    (h : ∀ c ∈ coords, inBounds img c) :
    gatherPixels img coords =
      some (coords.map (fun c => img.px c.1.toNat c.2.toNat)) := by
  induction coords with
  | nil => rfl
  | cons c rest ih =>
    have hc : inBounds img c := h c (List.mem_cons_self c rest)
    have hrest : ∀ d ∈ rest, inBounds img d := fun d hd => h d (List.mem_cons_of_mem c hd)
    simp only [gatherPixels, Image.getPx, if_pos hc, ih hrest, List.map_cons]

/-- A `flatMap` whose inner lists are all empty is empty. -/
theorem flatMap_nil_of_forall {α β : Type} (l : List α) (f : α → List β)
    (h : ∀ a, f a = []) : l.flatMap f = [] := by
  induction l with
  | nil => rfl
  | cons a t ih => rw [List.flatMap_cons, h, ih]; rfl

/-- Every coordinate the left colour-sampling loops visit is in bounds. -/
theorem leftSampleCoords_inBounds (img : Image) :
    ∀ c ∈ leftSampleCoords img, inBounds img c := by
  intro c hc
  unfold leftSampleCoords at hc
  obtain ⟨x, hx, hc⟩ := List.mem_flatMap.mp hc
  obtain ⟨y, hy, rfl⟩ := List.mem_map.mp hc
  have hx' := pyRange_mem_bounds one_pos hx
  have hy' := pyRange_mem_bounds (lt_of_lt_of_le one_pos (le_max_left 1 _)) hy
  unfold scanYStart scanYEnd edgeExclusionY at hy'
  unfold inBounds
  constructor
  · exact hx'.1
  refine ⟨by omega, by omega, by omega⟩

/-- Every coordinate the right colour-sampling loops visit is in bounds. -/
theorem rightSampleCoords_inBounds (img : Image) :
    ∀ c ∈ rightSampleCoords img, inBounds img c := by
  intro c hc
  unfold rightSampleCoords at hc
  obtain ⟨x, hx, hc⟩ := List.mem_flatMap.mp hc
  obtain ⟨y, hy, rfl⟩ := List.mem_map.mp hc
  have hx' := pyRange_mem_bounds one_pos hx
  have hy' := pyRange_mem_bounds (lt_of_lt_of_le one_pos (le_max_left 1 _)) hy
  unfold scanYStart scanYEnd edgeExclusionY at hy'
  unfold inBounds
  refine ⟨by omega, by omega, by omega, by omega⟩

/-- Every coordinate the top colour-sampling loops visit is in bounds. -/
theorem topSampleCoords_inBounds (img : Image) :
    ∀ c ∈ topSampleCoords img, inBounds img c := by
  intro c hc
  unfold topSampleCoords at hc
  obtain ⟨y, hy, hc⟩ := List.mem_flatMap.mp hc
  obtain ⟨x, hx, rfl⟩ := List.mem_map.mp hc
  have hy' := pyRange_mem_bounds one_pos hy
  have hx' := pyRange_mem_bounds (lt_of_lt_of_le one_pos (le_max_left 1 _)) hx
  unfold scanXStart scanXEnd edgeExclusionX at hx'
  unfold inBounds
  refine ⟨by omega, by omega, by omega, by omega⟩

/-- Every coordinate the bottom colour-sampling loops visit is in bounds. -/
theorem bottomSampleCoords_inBounds (img : Image) :
    ∀ c ∈ bottomSampleCoords img, inBounds img c := by
  intro c hc
  unfold bottomSampleCoords at hc
  obtain ⟨y, hy, hc⟩ := List.mem_flatMap.mp hc
  obtain ⟨x, hx, rfl⟩ := List.mem_map.mp hc
  have hy' := pyRange_mem_bounds one_pos hy
  have hx' := pyRange_mem_bounds (lt_of_lt_of_le one_pos (le_max_left 1 _)) hx
  unfold scanXStart scanXEnd edgeExclusionX at hx'
  unfold inBounds
  refine ⟨by omega, by omega, by omega, by omega⟩

/-- The left margin colour always computes (no access is out of range): the
mean of the sampled pixels, or the fallback when the sample is empty. -/
theorem leftMarginColor_eq (img : Image) (bc : Option Rgb) :
    leftMarginColor img bc =
      some (if (leftSampleCoords img).isEmpty then bc.getD defaultGrey
        else meanColor ((leftSampleCoords img).map
          (fun c => img.px c.1.toNat c.2.toNat))) := by
  unfold leftMarginColor
  rw [gatherPixels_eq_map _ _ (leftSampleCoords_inBounds img)]
  cases h : leftSampleCoords img with
  | nil => rfl
  | cons a t => rfl

/-- The right margin colour always computes: the mean of the sampled
right-edge pixels, with the written fallback chain. -/
theorem rightMarginColor_eq (img : Image) (bc : Option Rgb) :
    rightMarginColor img bc =
      some (if (rightSampleCoords img).isEmpty then
          (if (leftSampleCoords img).isEmpty then bc.getD defaultGrey
           else meanColor ((leftSampleCoords img).map
            (fun c => img.px c.1.toNat c.2.toNat)))
        else meanColor ((rightSampleCoords img).map
          (fun c => img.px c.1.toNat c.2.toNat))) := by
  unfold rightMarginColor
  rw [gatherPixels_eq_map _ _ (leftSampleCoords_inBounds img),
    gatherPixels_eq_map _ _ (rightSampleCoords_inBounds img)]
  cases h : leftSampleCoords img with
  | nil => cases h2 : rightSampleCoords img with
    | nil => rfl
    | cons a t => rfl
  | cons a t => cases h2 : rightSampleCoords img with
    | nil => rfl
    | cons b u => rfl

/-- The top margin colour always computes. -/
theorem topMarginColor_eq (img : Image) (bc : Option Rgb) :
    topMarginColor img bc =
      some (if (topSampleCoords img).isEmpty then bc.getD defaultGrey
        else meanColor ((topSampleCoords img).map
          (fun c => img.px c.1.toNat c.2.toNat))) := by
  unfold topMarginColor
  rw [gatherPixels_eq_map _ _ (topSampleCoords_inBounds img)]
  cases h : topSampleCoords img with
  | nil => rfl
  | cons a t => rfl

/-- The bottom margin colour always computes. -/
theorem bottomMarginColor_eq (img : Image) (bc : Option Rgb) :
    bottomMarginColor img bc =
      some (if (bottomSampleCoords img).isEmpty then bc.getD defaultGrey
        else meanColor ((bottomSampleCoords img).map
          (fun c => img.px c.1.toNat c.2.toNat))) := by
  unfold bottomMarginColor
  rw [gatherPixels_eq_map _ _ (bottomSampleCoords_inBounds img)]
  cases h : bottomSampleCoords img with
  | nil => rfl
  | cons a t => rfl

/-- When the orthogonal sampling range is reversed (`ortEnd < ortStart`) every
candidate line samples an empty coordinate list and is classified as
all-margin, so the scan finds no content (this is how every branch behaves on
images whose relevant dimension is at most 19). -/
theorem scanFirstContent_none_of_lt (img : Image) (color : Rgb) (tol : Int)
    {os oe : Int} (mk : Int → Int → Int × Int) (h : oe < os) :
    ∀ lines, scanFirstContent img color tol os oe mk lines = some none := by
  intro lines
  induction lines with
  | nil => rfl
  | cons l rest ih =>
    unfold scanFirstContent
    rw [if_neg (by omega : ¬ min 30 (oe - os) = 0)]
    rw [pyRange_nil h.le (lt_of_lt_of_le one_pos (le_max_left 1 _))]
    rw [List.map_nil]
    exact ih

/-- The left scan examines `min(width // 2, 1000)` candidate columns. -/
theorem leftScanLines_length (w : Nat) :
    (leftScanLines w).length = min (w / 2) 1000 := by
  unfold leftScanLines
  rw [pyRange_length]
  unfold pyCount
  rw [if_pos one_pos]
  have h1 : ((1 : Int)).toNat = 1 := rfl
  rw [h1]
  omega

/-- The right scan examines exactly `width // 2` candidate columns: the
1000-column cap of the left scan is absent here. -/
theorem rightScanLines_length (w : Nat) :
    (rightScanLines w).length = w / 2 := by
  unfold rightScanLines
  rw [pyRange_length]
  unfold pyCount
  rw [if_neg (by norm_num), if_pos (by norm_num)]
  have h1 : ((-(-1) : Int)).toNat = 1 := rfl
  rw [h1]
  omega

/-- The top scan examines `min(height // 2, 1000)` candidate rows. -/
theorem topScanLines_length (h : Nat) :
    (topScanLines h).length = min (h / 2) 1000 := by
  unfold topScanLines
  rw [pyRange_length]
  unfold pyCount
  rw [if_pos one_pos]
  have h1 : ((1 : Int)).toNat = 1 := rfl
  rw [h1]
  omega

/-- The bottom scan examines exactly `height // 2` candidate rows, again with
no 1000-row cap. -/
theorem bottomScanLines_length (h : Nat) :
    (bottomScanLines h).length = h / 2 := by
  unfold bottomScanLines
  rw [pyRange_length]
  unfold pyCount
  rw [if_neg (by norm_num), if_pos (by norm_num)]
  have h1 : ((-(-1) : Int)).toNat = 1 := rfl
  rw [h1]
  omega

/-- Evaluating `autocrop_grey_border` once the two margin colours are known. -/
theorem autocropGreyBorder_eval (img : Image) (bc : Option Rgb) (tol : Int)
    (sides : String) (lc rc : Rgb)
    (hlc : leftMarginColor img bc = some lc)
    (hrc : rightMarginColor img bc = some rc) :
    autocropGreyBorder img bc tol sides = greyBranch img lc rc bc tol (pyLower sides) := by
  unfold autocropGreyBorder
  rw [hlc, hrc]

/-- A left pass whose scan classifies every candidate column as margin leaves
the boundary at 0 and returns the full image. -/
theorem greyBranch_left_of_none (img : Image) (lc rc : Rgb) (bc : Option Rgb)
    (tol : Int)
    (hscan : scanFirstContent img lc tol (scanYStart img) (scanYEnd img)
      (fun x y => (x, y)) (leftScanLines img.width) = some none) :
    greyBranch img lc rc bc tol "left" = some img := by
  unfold greyBranch
  rw [if_pos rfl, hscan]
  exact congrArg some (Image.crop_full img)

/-- A right pass whose scan classifies every candidate column as margin leaves
the boundary at `width` and returns the full image. -/
theorem greyBranch_right_of_none (img : Image) (lc rc : Rgb) (bc : Option Rgb)
    (tol : Int)
    (hscan : scanFirstContent img rc tol (scanYStart img) (scanYEnd img)
      (fun x y => (x, y)) (rightScanLines img.width) = some none) :
    greyBranch img lc rc bc tol "right" = some img := by
  unfold greyBranch
  rw [if_neg (by decide), if_pos rfl, hscan]
  show some (img.crop 0 0 (min (img.width : Int) ((img.width : Int) + 2))
    (img.height : Int)) = some img
  rw [min_eq_left (by omega)]
  exact congrArg some (Image.crop_full img)

/-- A top pass whose scan finds no content returns the full image. -/
theorem greyBranch_top_of_none (img : Image) (lc rc : Rgb) (bc : Option Rgb)
    (tol : Int) (tc : Rgb)
    (htc : topMarginColor img bc = some tc)
    (hscan : scanFirstContent img tc tol (scanXStart img) (scanXEnd img)
      (fun l o => (o, l)) (topScanLines img.height) = some none) :
    greyBranch img lc rc bc tol "top" = some img := by
  unfold greyBranch
  rw [if_neg (by decide), if_neg (by decide), if_pos rfl, htc]
  show (match scanFirstContent img tc tol (scanXStart img) (scanXEnd img)
      (fun l o => (o, l)) (topScanLines img.height) with
    | none => none
    | some r => some (img.crop 0 (max 0 (r.getD 0 - 2))
        (img.width : Int) (img.height : Int))) = some img
  rw [hscan]
  exact congrArg some (Image.crop_full img)

/-- A bottom pass whose scan finds no content returns the full image. -/
theorem greyBranch_bottom_of_none (img : Image) (lc rc : Rgb) (bc : Option Rgb)
    (tol : Int) (bcol : Rgb)
    (hbc : bottomMarginColor img bc = some bcol)
    (hscan : scanFirstContent img bcol tol (scanXStart img) (scanXEnd img)
      (fun l o => (o, l)) (bottomScanLines img.height) = some none) :
    greyBranch img lc rc bc tol "bottom" = some img := by
  unfold greyBranch
  rw [if_neg (by decide), if_neg (by decide), if_neg (by decide), if_pos rfl, hbc]
  show (match scanFirstContent img bcol tol (scanXStart img) (scanXEnd img)
      (fun l o => (o, l)) (bottomScanLines img.height) with
    | none => none
    | some r => some (img.crop 0 0 (img.width : Int)
        (min (img.height : Int)
          ((match r with | some y => y + 1 | none => (img.height : Int)) + 2)))) = some img
  rw [hscan]
  show some (img.crop 0 0 (img.width : Int)
    (min (img.height : Int) ((img.height : Int) + 2))) = some img
  rw [min_eq_left (by omega)]
  exact congrArg some (Image.crop_full img)

/-- An unrecognised (lowercased) side name falls through to `return image`. -/
theorem greyBranch_other (img : Image) (lc rc : Rgb) (bc : Option Rgb)
    (tol : Int) (side : String) (h1 : side ≠ "left") (h2 : side ≠ "right")
    (h3 : side ≠ "top") (h4 : side ≠ "bottom") :
    greyBranch img lc rc bc tol side = some img := by
  unfold greyBranch
  rw [if_neg h1, if_neg h2, if_neg h3, if_neg h4]

/-- The left scan finds no content on a degenerate image: fewer than 2
columns (no candidate column at all) or height at most 19 (the exclusion band
empties the sample range). -/
theorem scanLeft_none_of_thin (img : Image) (lc : Rgb) (tol : Int)
    (h : img.width ≤ 1 ∨ img.height ≤ 19) :
    scanFirstContent img lc tol (scanYStart img) (scanYEnd img)
      (fun x y => (x, y)) (leftScanLines img.width) = some none := by
  rcases h with hw | hh
  · have hnil : leftScanLines img.width = [] :=
      List.length_eq_zero.mp (by rw [leftScanLines_length]; omega)
    rw [hnil]
    rfl
  · exact scanFirstContent_none_of_lt img lc tol _
      (by unfold scanYEnd scanYStart edgeExclusionY; omega) _

/-- The right scan finds no content on a degenerate image. -/
theorem scanRight_none_of_thin (img : Image) (rc : Rgb) (tol : Int)
    (h : img.width ≤ 1 ∨ img.height ≤ 19) :
    scanFirstContent img rc tol (scanYStart img) (scanYEnd img)
      (fun x y => (x, y)) (rightScanLines img.width) = some none := by
  rcases h with hw | hh
  · have hnil : rightScanLines img.width = [] :=
      List.length_eq_zero.mp (by rw [rightScanLines_length]; omega)
    rw [hnil]
    rfl
  · exact scanFirstContent_none_of_lt img rc tol _
      (by unfold scanYEnd scanYStart edgeExclusionY; omega) _

/-- The top scan finds no content on a degenerate image (fewer than 2 rows, or
width at most 19). -/
theorem scanTop_none_of_thin (img : Image) (tc : Rgb) (tol : Int)
    (h : img.height ≤ 1 ∨ img.width ≤ 19) :
    scanFirstContent img tc tol (scanXStart img) (scanXEnd img)
      (fun l o => (o, l)) (topScanLines img.height) = some none := by
  rcases h with hh | hw
  · have hnil : topScanLines img.height = [] :=
      List.length_eq_zero.mp (by rw [topScanLines_length]; omega)
    rw [hnil]
    rfl
  · exact scanFirstContent_none_of_lt img tc tol _
      (by unfold scanXEnd scanXStart edgeExclusionX; omega) _

/-- The bottom scan finds no content on a degenerate image. -/
theorem scanBottom_none_of_thin (img : Image) (bcol : Rgb) (tol : Int)
    (h : img.height ≤ 1 ∨ img.width ≤ 19) :
    scanFirstContent img bcol tol (scanXStart img) (scanXEnd img)
      (fun l o => (o, l)) (bottomScanLines img.height) = some none := by
  rcases h with hh | hw
  · have hnil : bottomScanLines img.height = [] :=
      List.length_eq_zero.mp (by rw [bottomScanLines_length]; omega)
    rw [hnil]
    rfl
  · exact scanFirstContent_none_of_lt img bcol tol _
      (by unfold scanXEnd scanXStart edgeExclusionX; omega) _

/-- A zero-sized image gives `autocrop_white_border` nothing to scan, so the
running extrema stay at their initial values and the function returns the
image itself. -/
theorem autocropWhiteBorder_unchanged_of_zero (img : Image) (th : Int)
    (h : img.width = 0 ∨ img.height = 0) :
    autocropWhiteBorder img th = some img := by
  have hac : allCoords img.width img.height = [] := by
    rcases h with hw | hh
    · refine flatMap_nil_of_forall _ _ (fun y => ?_)
      rw [hw, pyRange_nil (by norm_num) one_pos]
      rfl
    · unfold allCoords
      rw [hh, pyRange_nil (by norm_num) one_pos]
      rfl
  unfold autocropWhiteBorder whitePaddedRect
  rw [hac]
  simp only [whiteBboxFold]
  simp

/-- For a 1-pixel-wide-or-wider image the left sampling band is nonempty as
soon as the excluded vertical range is (height at least 21). -/
theorem leftSampleCoords_ne_nil (img : Image) (hw : 1 ≤ img.width)
    (hh : 21 ≤ img.height) : (leftSampleCoords img).isEmpty = false := by
  rw [List.isEmpty_eq_false]
  apply List.ne_nil_of_mem
    (show ((0 : Int), scanYStart img) ∈ leftSampleCoords img from ?_)
  unfold leftSampleCoords
  refine List.mem_flatMap.mpr ⟨0, pyRange_head_mem (by omega) one_pos, ?_⟩
  exact List.mem_map.mpr ⟨scanYStart img,
    pyRange_head_mem (by unfold scanYEnd scanYStart edgeExclusionY; omega)
      (lt_of_lt_of_le one_pos (le_max_left 1 _)), rfl⟩

/-- Same for the right sampling band. -/
theorem rightSampleCoords_ne_nil (img : Image) (hw : 1 ≤ img.width)
    (hh : 21 ≤ img.height) : (rightSampleCoords img).isEmpty = false := by
  rw [List.isEmpty_eq_false]
  apply List.ne_nil_of_mem
    (show (max 0 ((img.width : Int) - 20), scanYStart img) ∈ rightSampleCoords img from ?_)
  unfold rightSampleCoords
  refine List.mem_flatMap.mpr
    ⟨max 0 ((img.width : Int) - 20), pyRange_head_mem (by omega) one_pos, ?_⟩
  exact List.mem_map.mpr ⟨scanYStart img,
    pyRange_head_mem (by unfold scanYEnd scanYStart edgeExclusionY; omega)
      (lt_of_lt_of_le one_pos (le_max_left 1 _)), rfl⟩

/-! Claim theorems. -/

/-- C1 (amended): a scanned line is classified as "all margin" iff every one
of its sampled pixels is within tolerance of the margin colour — the
effective per-line ratio threshold in the code is 1.0, not 0.9: the inner
loop breaks and classifies the line as content at the first sample whose
distance exceeds the tolerance, so a single stray pixel does stop the scan. -/
theorem lineAllMargin_true_iff (img : Image) (color : Rgb) (tol : Int)
    (coords : List (Int × Int)) (hin : ∀ c ∈ coords, inBounds img c) :
    (lineAllMargin img color tol coords = some true ↔
      ∀ c ∈ coords,
        distGtTol (distSq (img.px c.1.toNat c.2.toNat) color) tol = false) := by
  induction coords with
  | nil => simp [lineAllMargin]
  | cons c rest ih =>
    have hc : inBounds img c := hin c (List.mem_cons_self c rest)
    have hre := ih (fun d hd => hin d (List.mem_cons_of_mem c hd))
    simp only [lineAllMargin, Image.getPx, if_pos hc]
    by_cases hd : distGtTol (distSq (img.px c.1.toNat c.2.toNat) color) tol
    · simp [hd]
    · simp only [Bool.not_eq_true] at hd
      simp [hd, hre]

/-- C1 witness: a concrete two-sample line on a uniform image, all in bounds
and all within tolerance. -/
theorem lineAllMargin_true_iff_witness :
    (∀ c ∈ wcoords, inBounds (uniImg 5 25) c) ∧
    (lineAllMargin (uniImg 5 25) ⟨220, 220, 220⟩ 60 wcoords = some true ↔
      ∀ c ∈ wcoords,
        distGtTol (distSq ((uniImg 5 25).px c.1.toNat c.2.toNat)
          ⟨220, 220, 220⟩) 60 = false) :=
  ⟨by decide, lineAllMargin_true_iff (uniImg 5 25) ⟨220, 220, 220⟩ 60 wcoords (by decide)⟩

/-- C1 counterexample: on `ex1` the left-scan margin colour is
`(218, 218, 218)`; column 5 has 10 samples of which exactly one exceeds the
tolerance (fraction within tolerance 9/10 ≥ 0.9), yet the code classifies the
column as content (`some false`) and the scan stops there: the pass crops the
12-wide image to width 9 instead of leaving it unchanged. -/
theorem single_outlier_halts_scan :
    leftMarginColor ex1 none = some ⟨218, 218, 218⟩ ∧
    ex1LineCoords.length = 10 ∧
    countBeyondTol ex1 ⟨218, 218, 218⟩ 60 ex1LineCoords = 1 ∧
    lineAllMargin ex1 ⟨218, 218, 218⟩ 60 ex1LineCoords = some false ∧
    (autocropGreyBorder ex1 none 60 "left").map Image.width = some 9 :=
  ⟨by decide, by decide, by decide, by decide, by decide⟩

/-- C2 (amended): the number of candidate lines each scan examines is
`min(dim // 2, 1000)` for the left and top scans, but exactly `dim // 2` with
no 1000-pixel cap for the right and bottom scans. -/
theorem scanLines_length_spec (w h : Nat) :
    (leftScanLines w).length = min (w / 2) 1000 ∧
    (rightScanLines w).length = w / 2 ∧
    (topScanLines h).length = min (h / 2) 1000 ∧
    (bottomScanLines h).length = h / 2 :=
  ⟨leftScanLines_length w, rightScanLines_length w,
   topScanLines_length h, bottomScanLines_length h⟩

/-- C2 counterexample: on a uniform 2002×21 image the right scan walks 1001
candidate columns — and classifies every one of them (`some none`), so it
examines more than the claimed uniform limit `min(2002 / 2, 1000) = 1000`. -/
theorem right_scan_exceeds_cap :
    (rightScanLines (uniImg 2002 21).width).length = 1001 ∧
    min ((uniImg 2002 21).width / 2) 1000 = 1000 ∧
    rightMarginColor (uniImg 2002 21) none = some ⟨220, 220, 220⟩ ∧
    scanFirstContent (uniImg 2002 21) ⟨220, 220, 220⟩ 60
      (scanYStart (uniImg 2002 21)) (scanYEnd (uniImg 2002 21))
      (fun x y => (x, y)) (rightScanLines (uniImg 2002 21).width) = some none :=
  ⟨by decide, by decide, by decide, by decide⟩

/-- C3 (amended): when the scan classifies every candidate line as margin
("no content line found"), the boundary stays at the edge — `left` keeps its
initial value 0 and `right` keeps `width` — so the pass returns the image
unchanged; the scan limit is not treated as the boundary and nothing is
removed. -/
theorem no_content_returns_unchanged (img : Image) (bc : Option Rgb)
    (tol : Int) (lc rc : Rgb)
    (hlc : leftMarginColor img bc = some lc)
    (hrc : rightMarginColor img bc = some rc)
    (hL : scanFirstContent img lc tol (scanYStart img) (scanYEnd img)
      (fun x y => (x, y)) (leftScanLines img.width) = some none)
    (hR : scanFirstContent img rc tol (scanYStart img) (scanYEnd img)
      (fun x y => (x, y)) (rightScanLines img.width) = some none) :
    autocropGreyBorder img bc tol "left" = some img ∧
    autocropGreyBorder img bc tol "right" = some img := by
  constructor
  · rw [autocropGreyBorder_eval img bc tol "left" lc rc hlc hrc,
      show pyLower "left" = "left" from by decide]
    exact greyBranch_left_of_none img lc rc bc tol hL
  · rw [autocropGreyBorder_eval img bc tol "right" lc rc hlc hrc,
      show pyLower "right" = "right" from by decide]
    exact greyBranch_right_of_none img lc rc bc tol hR

/-- C3 witness: a uniform 30×21 image — no content is found on either side
and both passes return it unchanged. -/
theorem no_content_returns_unchanged_witness :
    autocropGreyBorder (uniImg 30 21) none 60 "left" = some (uniImg 30 21) ∧
    autocropGreyBorder (uniImg 30 21) none 60 "right" = some (uniImg 30 21) :=
  no_content_returns_unchanged (uniImg 30 21) none 60 ⟨220, 220, 220⟩
    ⟨220, 220, 220⟩ (by decide) (by decide) (by decide) (by decide)

/-- C3 counterexample: on a uniform 100×21 image the left scan examines all
50 candidate columns, finds no content — and the pass returns the image
unchanged (width still 100), not cropped at the scan limit as the claim
says (which would leave width at most 52). -/
theorem no_content_fallback_keeps_image :
    leftMarginColor (uniImg 100 21) none = some ⟨220, 220, 220⟩ ∧
    (leftScanLines (uniImg 100 21).width).length = 50 ∧
    scanFirstContent (uniImg 100 21) ⟨220, 220, 220⟩ 60
      (scanYStart (uniImg 100 21)) (scanYEnd (uniImg 100 21))
      (fun x y => (x, y)) (leftScanLines (uniImg 100 21).width) = some none ∧
    autocropGreyBorder (uniImg 100 21) none 60 "left" = some (uniImg 100 21) :=
  ⟨by decide, by decide, by decide, rfl⟩

/-- C4 (confirmed): in the combined left+right grey pass of `main.py`, if the
computed boundaries satisfy `left ≥ right` or `right - left < width * 0.1`
(the crop would be degenerate or narrower than 10% of the width), the pass is
rejected and the input image is returned unmodified. -/
theorem main_degenerate_crop_rejected (img : Image) (bc : Option Rgb)
    (tol : Int) (lc rc : Rgb) (lr rr : Option Int)
    (hlc : leftMarginColor img bc = some lc)
    (hrc : rightMarginColor img bc = some rc)
    (hL : scanFirstContent img lc tol (scanYStart img) (scanYEnd img)
      (fun x y => (x, y)) (leftScanLines img.width) = some lr)
    (hR : scanFirstContent img rc tol (scanYStart img) (scanYEnd img)
      (fun x y => (x, y)) (mainRightScanLines img.width (lr.getD 0)) = some rr)
    (hguard : lr.getD 0 ≥ mainRightBoundary img.width rr ∨
      (mainRightBoundary img.width rr - lr.getD 0) * 10 < (img.width : Int)) :
    autocropGreyBorderMain img bc tol = some img := by
  unfold autocropGreyBorderMain
  simp only [hlc, hrc, hL, hR]
  rw [if_pos hguard]

/-- C4 witness: on a 0×5 image both scans find nothing, `left = right = 0`,
the guard fires and the image comes back unmodified. -/
theorem main_degenerate_crop_rejected_witness :
    autocropGreyBorderMain zimgA none 60 = some zimgA :=
  main_degenerate_crop_rejected zimgA none 60 defaultGrey defaultGrey
    none none (by decide) (by decide) (by decide) (by decide)
    (Or.inl (by decide))

/-- C5 (amended): the grey-margin pass is not idempotent in general (see the
counterexample); it is idempotent exactly on its fixed points: whenever a
pass returns its input unchanged, running it again changes nothing. -/
theorem grey_pass_fixed_point (img : Image) (bc : Option Rgb) (tol : Int)
    (s : String) (h : autocropGreyBorder img bc tol s = some img) :
    (autocropGreyBorder img bc tol s).bind
      (fun i => autocropGreyBorder i bc tol s) =
      autocropGreyBorder img bc tol s := by
  rw [h]
  simp only [Option.some_bind]
  exact h

/-- C5 witness: a uniform 50×21 image is a fixed point of the left pass. -/
theorem grey_pass_fixed_point_witness :
    (autocropGreyBorder (uniImg 50 21) none 60 "left").bind
      (fun i => autocropGreyBorder i none 60 "left") =
      autocropGreyBorder (uniImg 50 21) none 60 "left" :=
  grey_pass_fixed_point (uniImg 50 21) none 60 "left" rfl

/-- C5 counterexample: on `ex5` the first left pass (fixed parameters:
`border_color = None`, tolerance 60) crops to width 24, and applying the same
pass to that output crops further, to width 18 — the margin colour is
re-estimated from the cropped image, so `f(f(x)) ≠ f(x)` on the crop
rectangle. -/
theorem grey_pass_not_idempotent :
    (autocropGreyBorder ex5 none 60 "left").map Image.width = some 24 ∧
    ((autocropGreyBorder ex5 none 60 "left").bind
      (fun i => autocropGreyBorder i none 60 "left")).map Image.width = some 18 :=
  ⟨by decide, by decide⟩

/-- C6 (confirmed): on the 13×13 white canvas with a single black pixel at
`(10, 10)` and threshold 250, the black pixel is the only content (luminance
0 < 250, white is 255 ≥ 250), the tight bounding box `(10, 10)`-`(10, 10)` is
padded by 2 and clamped, giving the crop box `(8, 8, 13, 13)` and a 5×5
result. -/
theorem white_bbox_exactness :
    whitePaddedRect whiteCanvas 250 = some (some (8, 8, 13, 13)) ∧
    (autocropWhiteBorder whiteCanvas 250).map (fun i => (i.width, i.height)) =
      some (5, 5) :=
  ⟨by decide, by decide⟩

/-- C7 (confirmed): on an image with zero width or zero height both autocrop
functions return the image unchanged and never read a pixel (in the model a
successful `some` result certifies that no out-of-range access — which would
yield `none` — occurred; all scan and sampling ranges are empty on such
images). -/
theorem zero_sized_images_unchanged (img : Image) (th : Int) (bc : Option Rgb)
    (tol : Int) (sides : String) (h : img.width = 0 ∨ img.height = 0) :
    autocropWhiteBorder img th = some img ∧
    autocropGreyBorder img bc tol sides = some img := by
  refine ⟨autocropWhiteBorder_unchanged_of_zero img th h, ?_⟩
  rw [autocropGreyBorder_eval img bc tol sides _ _
    (leftMarginColor_eq img bc) (rightMarginColor_eq img bc)]
  by_cases h1 : pyLower sides = "left"
  · rw [h1]
    exact greyBranch_left_of_none img _ _ bc tol
      (scanLeft_none_of_thin img _ tol (by omega))
  by_cases h2 : pyLower sides = "right"
  · rw [h2]
    exact greyBranch_right_of_none img _ _ bc tol
      (scanRight_none_of_thin img _ tol (by omega))
  by_cases h3 : pyLower sides = "top"
  · rw [h3]
    exact greyBranch_top_of_none img _ _ bc tol _ (topMarginColor_eq img bc)
      (scanTop_none_of_thin img _ tol (by omega))
  by_cases h4 : pyLower sides = "bottom"
  · rw [h4]
    exact greyBranch_bottom_of_none img _ _ bc tol _ (bottomMarginColor_eq img bc)
      (scanBottom_none_of_thin img _ tol (by omega))
  exact greyBranch_other img _ _ bc tol _ h1 h2 h3 h4

/-- C7 witness: a 4×0 image passes through both functions unchanged. -/
theorem zero_sized_images_unchanged_witness :
    autocropWhiteBorder zimgB 250 = some zimgB ∧
    autocropGreyBorder zimgB none 60 "top" = some zimgB :=
  zero_sized_images_unchanged zimgB 250 none 60 "top" (Or.inr rfl)

/-- C8 (confirmed): any `sides` argument whose lowercasing is none of
"left", "right", "top" or "bottom" falls through every branch and the image
is returned unchanged, with no error. -/
theorem invalid_side_returns_unchanged (img : Image) (bc : Option Rgb)
    (tol : Int) (sides : String)
    (h : pyLower sides ∉ (["left", "right", "top", "bottom"] : List String)) :
    autocropGreyBorder img bc tol sides = some img := by
  rw [autocropGreyBorder_eval img bc tol sides _ _
    (leftMarginColor_eq img bc) (rightMarginColor_eq img bc)]
  simp only [List.mem_cons, List.not_mem_nil, or_false] at h
  push_neg at h
  exact greyBranch_other img _ _ bc tol _ h.1 h.2.1 h.2.2.1 h.2.2.2

/-- C8 witness: `sides = "Diagonal"` leaves a uniform 6×25 image unchanged. -/
theorem invalid_side_returns_unchanged_witness :
    autocropGreyBorder (uniImg 6 25) none 60 "Diagonal" = some (uniImg 6 25) :=
  invalid_side_returns_unchanged (uniImg 6 25) none 60 "Diagonal" (by decide)

/-- C9 (confirmed): for an RGB image with width ≥ 1 and height ≥ 21 and
`sides` "left" or "right", both edge sampling bands are nonempty, so the
margin colours are the sampled means and the `border_color` fallback is never
consulted: any two `border_color` arguments give identical results. -/
theorem border_color_never_consulted (img : Image) (c1 c2 : Option Rgb)
    (tol : Int) (s : String) (hw : 1 ≤ img.width) (hh : 21 ≤ img.height)
    (hs : s = "left" ∨ s = "right") :
    autocropGreyBorder img c1 tol s = autocropGreyBorder img c2 tol s := by
  have hl := leftSampleCoords_ne_nil img hw hh
  have hr := rightSampleCoords_ne_nil img hw hh
  rw [autocropGreyBorder_eval img c1 tol s _ _
      (leftMarginColor_eq img c1) (rightMarginColor_eq img c1),
    autocropGreyBorder_eval img c2 tol s _ _
      (leftMarginColor_eq img c2) (rightMarginColor_eq img c2)]
  simp only [hl, hr, Bool.false_eq_true, if_false]
  rcases hs with rfl | rfl
  · rw [show pyLower "left" = "left" from by decide]
    unfold greyBranch
    rw [if_pos rfl, if_pos rfl]
  · rw [show pyLower "right" = "right" from by decide]
    unfold greyBranch
    rw [if_neg (by decide), if_pos rfl, if_neg (by decide), if_pos rfl]

/-- C9 witness: on a uniform 1×21 image, `border_color = None` and
`border_color = (0, 0, 0)` give the same left pass result. -/
theorem border_color_never_consulted_witness :
    autocropGreyBorder (uniImg 1 21) none 60 "left" =
      autocropGreyBorder (uniImg 1 21) (some ⟨0, 0, 0⟩) 60 "left" :=
  border_color_never_consulted (uniImg 1 21) none (some ⟨0, 0, 0⟩) 60 "left"
    (by decide) (by decide) (Or.inl rfl)

/-- C10: at height exactly 20 the exclusion band makes
`scan_y_end - scan_y_start = 0`, so on any image wide enough for the scan
loop to run the step computation divides by zero
(`max(1, 0 // min(30, 0))`) — the code raises `ZeroDivisionError` (modelled
`none`) instead of returning the image unchanged. -/
theorem height20_zero_division :
    (uniImg 2 20).height = 20 ∧
    autocropGreyBorder (uniImg 2 20) none 60 "left" = none :=
  ⟨rfl, rfl⟩
